import Mathlib

set_option linter.unnecessarySeqFocus false

/-!
Verification of a UNIX permission / umask calculator.

The program reads a mode string and a umask string (each expected to be a
4-digit octal numeral), validates them, parses them to integers, computes
the effective permission `effective = (mode & (~umask)) & 0777`, and prints
the result both as a zero-padded 4-digit octal numeral and as a 9-character
symbolic `rwxrwxrwx` string.  Errors are reported as a single
`ERROR: <CODE>: <message>` line with exit code 1.

C++ `int` values are modelled as `Int`; the bitwise operators `&`, `~` and
`>>` of the source are modelled by `Int.land`, `Int.lnot` and `>>>` on `Int`,
whose two's-complement semantics coincide with the 32-bit machine operations
on every value this program manipulates (no overflow occurs).  C++
`std::string` is modelled as `String` (a list of characters).
-/

namespace PermCalc

/-- Validator, from `is_valid_octal4`: a string is accepted iff its size is
exactly 4 and every character is between the characters zero and seven. -/
def is_valid_octal4 (s : String) : Bool :=
  if s.length ≠ 4 then false
  else s.data.all (fun c => !(c < '0' || c > '7'))

/-- Parser, from `octal_to_int`: fold over the characters, accumulating
`value = value * 8 + (c - '0')`.  The character-minus-character arithmetic of
C++ is integer subtraction of code points, hence the cast through `Char.toNat`
and the literal 48 (the code point of the character zero). -/
def octal_to_int (s : String) : Int :=
  s.data.foldl (fun value c => value * 8 + ((c.toNat : Int) - 48)) 0

/-- Character for one octal digit (0-7): code point 48 + digit, as produced by
the `std::oct` formatter. -/
def octDigitChar (d : Nat) : Char :=
  Char.ofNat (48 + d)

/-- Minimal (no leading zero) octal digit list of a natural number, written
most significant digit first, as `operator<<` with `std::oct` produces.  The
first argument is fuel; `natToOctDigits` always supplies enough. -/
def natToOctDigitsGo : Nat → Nat → List Char → List Char
  | 0, _, acc => acc
  | fuel + 1, n, acc =>
    if n < 8 then octDigitChar n :: acc
    else natToOctDigitsGo fuel (n / 8) (octDigitChar (n % 8) :: acc)

/-- Octal digit list of a natural number, most significant first. -/
def natToOctDigits (n : Nat) : List Char :=
  natToOctDigitsGo (n + 1) n []

/-- Zero padding on the left to a given width, as `setfill('0') << setw(4)`
does. -/
def padLeftZero (w : Nat) (l : List Char) : List Char :=
  List.replicate (w - l.length) '0' ++ l

/-- Octal renderer, from `int_to_octal4`: print `value & 0777` in base 8,
zero-padded to width 4. -/
def int_to_octal4 (value : Int) : String :=
  String.mk (padLeftZero 4 (natToOctDigits (Int.toNat (Int.land value 511))))

/-- Triad renderer, from `triad_to_rwx`: three characters, one per permission
bit, where a C++ condition `(bits & 4)` is truthy exactly when the bitwise
conjunction is nonzero. -/
def triad_to_rwx (bits : Int) : String :=
  String.mk
    [if Int.land bits 4 ≠ 0 then 'r' else '-',
     if Int.land bits 2 ≠ 0 then 'w' else '-',
     if Int.land bits 1 ≠ 0 then 'x' else '-']

/-- Symbolic renderer, from `mode_to_symbolic`: extract the user, group and
other triads by shifting right 6, 3 and 0 bits and masking with 7, and
concatenate their triad renderings. -/
def mode_to_symbolic (mode : Int) : String :=
  triad_to_rwx (Int.land (mode >>> (6 : Int)) 7) ++
    triad_to_rwx (Int.land (mode >>> (3 : Int)) 7) ++
      triad_to_rwx (Int.land (mode >>> (0 : Int)) 7)

/-- Error reporter, from `error_out`: the single line it prints. -/
def error_out (code msg : String) : String :=
  ("ERROR: ") ++ code ++ (": ") ++ msg

/-- Result of one run of `main`: either a reported failure (the code and
message passed to `error_out`) or a successfully computed effective value. -/
inductive RunResult where
  | failure (code msg : String)
  | success (effective : Int)
deriving DecidableEq

/-- Observable outcome of one run of `main`: its result, the process exit
code, and whether the run reached the point where the umask is prompted for
and read. -/
structure RunOutcome where
  result : RunResult
  exitCode : Nat
  umaskRead : Bool
deriving DecidableEq

/-- Run of `main` on the two tokens read from standard input: validate the
mode, validate the umask, parse both, apply the defensive range checks, and
compute `effective = (mode & (~umask)) & 0777`.  The `umaskRead` flag records
whether control reached the second prompt/read. -/
def main_run (modeStr umaskStr : String) : RunOutcome :=
  if !(is_valid_octal4 modeStr) then
    ⟨.failure ("E_OCTAL") ("mode must be 4-digit octal (0000-0777)"), 1, false⟩
  else if !(is_valid_octal4 umaskStr) then
    ⟨.failure ("E_OCTAL") ("umask must be 4-digit octal (0000-0777)"), 1, true⟩
  else
    let mode := octal_to_int modeStr
    let umask := octal_to_int umaskStr
    if mode > 511 then
      ⟨.failure ("E_RANGE") ("mode out of range (0000-0777)"), 1, true⟩
    else if umask > 511 then
      ⟨.failure ("E_RANGE") ("umask out of range (0000-0777)"), 1, true⟩
    else
      ⟨.success (Int.land (Int.land mode (Int.lnot umask)) 511), 0, true⟩

/-- Lines printed by `main` after the prompts: one `ERROR:` line on failure,
or the `OK: EFFECTIVE` and `OK: SYMBOLIC` lines on success. -/
def outcome_lines : RunResult → List String
  | .failure code msg => [error_out code msg]
  | .success e =>
      [("OK: EFFECTIVE ") ++ int_to_octal4 e, ("OK: SYMBOLIC ") ++ mode_to_symbolic e]

/-- Triad rendering as the specification words it, written independently of
the code: bit value 4 maps to the read character, bit value 2 to the write
character, bit value 1 to the execute character, a dash otherwise.  Bits are
read off arithmetically (`t / b % 2`) rather than with the code's bitwise
operators. -/
def rwx_spec_chars (t : Nat) : List Char :=
  [if t / 4 % 2 = 1 then 'r' else '-',
   if t / 2 % 2 = 1 then 'w' else '-',
   if t % 2 = 1 then 'x' else '-']

/-- Symbolic rendering as the specification words it: the three triads are
the three base-8 digits of the value (user first), each rendered by
`rwx_spec_chars` and concatenated. -/
def symbolic_spec (v : Nat) : String :=
  String.mk (rwx_spec_chars (v / 64 % 8) ++ rwx_spec_chars (v / 8 % 8) ++ rwx_spec_chars (v % 8))

/-! Helper lemmas about characters, lists, and bitwise arithmetic. -/

/-- A character accepted by the validator loop body has code point between
48 and 55 (the code points of the characters zero and seven). -/
lemma char_code_bounds {c : Char} (h : (!(c < '0' || c > '7')) = true) :
    48 ≤ c.toNat ∧ c.toNat ≤ 55 := by
  simp only [Bool.not_eq_true', Bool.or_eq_false_iff, decide_eq_false_iff_not] at h
  obtain ⟨h1, h2⟩ := h
  constructor
  · simpa [Char.lt_def] using h1
  · simpa [Char.lt_def] using h2

/-- A list of length four is literally a four-element list. -/
lemma list_length_four {α : Type} {l : List α} (h : l.length = 4) :
    ∃ a b c d : α, l = [a, b, c, d] := by
  cases l with
  | nil => simp at h
  | cons a t1 =>
    cases t1 with
    | nil => simp at h
    | cons b t2 =>
      cases t2 with
      | nil => simp at h
      | cons c t3 =>
        cases t3 with
        | nil => simp at h
        | cons d t4 =>
          cases t4 with
          | nil => exact ⟨a, b, c, d, rfl⟩
          | cons e t5 => simp at h

/-- A validated string has exactly four characters, all with code points in
the octal-digit band. -/
lemma valid_chars {s : String} (h : is_valid_octal4 s = true) :
    s.data.length = 4 ∧ ∀ c ∈ s.data, 48 ≤ c.toNat ∧ c.toNat ≤ 55 := by
  rw [is_valid_octal4] at h
  by_cases hlen : s.length ≠ 4
  · rw [if_pos hlen] at h
    exact absurd h (by simp)
  · rw [if_neg hlen] at h
    push_neg at hlen
    refine ⟨hlen, fun c hc => ?_⟩
    exact char_code_bounds (List.all_eq_true.mp h c hc)

/-- The parse of a validated string lies in the interval from 0 to 4095:
the validator accepts every four-character octal numeral, up to 7777 in
base 8, not only those below 0777. -/
lemma octal_to_int_bounds {s : String} (h : is_valid_octal4 s = true) :
    0 ≤ octal_to_int s ∧ octal_to_int s ≤ 4095 := by
  obtain ⟨hlen, hall⟩ := valid_chars h
  obtain ⟨a, b, c, d, hdata⟩ := list_length_four hlen
  have ha := hall a (by rw [hdata]; simp)
  have hb := hall b (by rw [hdata]; simp)
  have hc := hall c (by rw [hdata]; simp)
  have hd := hall d (by rw [hdata]; simp)
  rw [octal_to_int, hdata]
  simp only [List.foldl]
  omega

/-- Set difference of bits rewritten through exclusive or and conjunction,
which evaluate primitively. -/
lemma nat_ldiff_eq_xor (m n : Nat) : Nat.ldiff m n = m ^^^ (m &&& n) := by
  apply Nat.eq_of_testBit_eq
  intro i
  simp only [Nat.testBit_ldiff, Nat.testBit_xor, Nat.testBit_land]
  cases m.testBit i <;> cases n.testBit i <;> rfl

/-- Bitwise conjunction with 511 computes the remainder modulo 512. -/
lemma nat_land_511_eq_mod (k : Nat) : k &&& 511 = k % 512 := by
  have h := Nat.and_pow_two_sub_one_eq_mod k 9
  norm_num at h
  exact h

/-- Conjoining a natural number with a negated integer stays non-negative. -/
lemma int_land_lnot_cast (n : Nat) (u : Int) :
    ∃ k : Nat, Int.land ((n : ℤ)) (Int.lnot u) = ((k : ℕ) : ℤ) := by
  cases u with
  | ofNat m => exact ⟨Nat.ldiff n m, rfl⟩
  | negSucc m => exact ⟨n &&& m, rfl⟩

/-- Conjunction of a cast natural number with 511, on the integers. -/
lemma int_land_511_cast (k : Nat) : Int.land ((k : ℤ)) 511 = ((k % 512 : ℕ) : ℤ) := by
  show ((k &&& 511 : ℕ) : ℤ) = ((k % 512 : ℕ) : ℤ)
  exact congrArg _ (nat_land_511_eq_mod k)

/-- Set difference from 511 is unchanged by a further conjunction with 511. -/
lemma nat_ldiff_land_511 (n : Nat) : (Nat.ldiff 511 n) &&& 511 = Nat.ldiff 511 n := by
  apply Nat.eq_of_testBit_eq
  intro i
  simp only [Nat.testBit_land, Nat.testBit_ldiff]
  cases Nat.testBit 511 i <;> cases Nat.testBit n i <;> rfl

/-- Masking with 511 is idempotent on the integers. -/
lemma int_land_land_511 (v : Int) : Int.land (Int.land v 511) 511 = Int.land v 511 := by
  cases v with
  | ofNat k =>
    show Int.land ((k &&& 511 : ℕ) : ℤ) 511 = ((k &&& 511 : ℕ) : ℤ)
    rw [int_land_511_cast]
    rw [nat_land_511_eq_mod]
    norm_num [Nat.mod_mod_of_dvd]
  | negSucc m =>
    show ((Nat.ldiff 511 m &&& 511 : ℕ) : ℤ) = ((Nat.ldiff 511 m : ℕ) : ℤ)
    exact congrArg _ (nat_ldiff_land_511 m)

/-- Extracting a triad (shift then mask with 7) only looks at the low nine
bits, natural-number case. -/
lemma nat_shift_mask_eq (s n : Nat) (hs : s ≤ 6) :
    (n >>> s) &&& 7 = ((n &&& 511) >>> s) &&& 7 := by
  apply Nat.eq_of_testBit_eq
  intro i
  simp only [Nat.testBit_land, Nat.testBit_shiftRight]
  rw [show (7 : ℕ) = 2 ^ 3 - 1 by norm_num, show (511 : ℕ) = 2 ^ 9 - 1 by norm_num]
  simp only [Nat.testBit_two_pow_sub_one]
  cases h : n.testBit (s + i) <;> by_cases h3 : i < 3 <;> by_cases h9 : s + i < 9 <;>
    simp [h3, h9] <;> omega

/-- Extracting a triad only looks at the low nine bits, negative
(complemented) case. -/
lemma nat_ldiff_shift_mask_eq (s n : Nat) (hs : s ≤ 6) :
    Nat.ldiff 7 (n >>> s) = ((Nat.ldiff 511 n) >>> s) &&& 7 := by
  apply Nat.eq_of_testBit_eq
  intro i
  simp only [Nat.testBit_ldiff, Nat.testBit_land, Nat.testBit_shiftRight]
  rw [show (7 : ℕ) = 2 ^ 3 - 1 by norm_num, show (511 : ℕ) = 2 ^ 9 - 1 by norm_num]
  simp only [Nat.testBit_two_pow_sub_one]
  cases h : n.testBit (s + i) <;> by_cases h3 : i < 3 <;> by_cases h9 : s + i < 9 <;>
    simp [h3, h9] <;> omega

/-- The user triad of an integer mode agrees with the user triad of its low
nine bits. -/
lemma int_shift6_mask (v : Int) :
    Int.land (v >>> (6 : Int)) 7 = Int.land ((Int.land v 511) >>> (6 : Int)) 7 := by
  cases v with
  | ofNat n =>
    show (((n >>> 6) &&& 7 : ℕ) : ℤ) = ((((n &&& 511) >>> 6) &&& 7 : ℕ) : ℤ)
    exact congrArg _ (nat_shift_mask_eq 6 n (by norm_num))
  | negSucc n =>
    show ((Nat.ldiff 7 (n >>> 6) : ℕ) : ℤ) = ((((Nat.ldiff 511 n) >>> 6) &&& 7 : ℕ) : ℤ)
    exact congrArg _ (nat_ldiff_shift_mask_eq 6 n (by norm_num))

/-- The group triad of an integer mode agrees with the group triad of its
low nine bits. -/
lemma int_shift3_mask (v : Int) :
    Int.land (v >>> (3 : Int)) 7 = Int.land ((Int.land v 511) >>> (3 : Int)) 7 := by
  cases v with
  | ofNat n =>
    show (((n >>> 3) &&& 7 : ℕ) : ℤ) = ((((n &&& 511) >>> 3) &&& 7 : ℕ) : ℤ)
    exact congrArg _ (nat_shift_mask_eq 3 n (by norm_num))
  | negSucc n =>
    show ((Nat.ldiff 7 (n >>> 3) : ℕ) : ℤ) = ((((Nat.ldiff 511 n) >>> 3) &&& 7 : ℕ) : ℤ)
    exact congrArg _ (nat_ldiff_shift_mask_eq 3 n (by norm_num))

/-- The other triad of an integer mode agrees with the other triad of its
low nine bits. -/
lemma int_shift0_mask (v : Int) :
    Int.land (v >>> (0 : Int)) 7 = Int.land ((Int.land v 511) >>> (0 : Int)) 7 := by
  cases v with
  | ofNat n =>
    show (((n >>> 0) &&& 7 : ℕ) : ℤ) = ((((n &&& 511) >>> 0) &&& 7 : ℕ) : ℤ)
    exact congrArg _ (nat_shift_mask_eq 0 n (by norm_num))
  | negSucc n =>
    show ((Nat.ldiff 7 (n >>> 0) : ℕ) : ℤ) = ((((Nat.ldiff 511 n) >>> 0) &&& 7 : ℕ) : ℤ)
    exact congrArg _ (nat_ldiff_shift_mask_eq 0 n (by norm_num))

/-- An effective value built from a non-negative mode is between 0 and 511. -/
lemma effective_bounds (m u : Int) (hm : 0 ≤ m) :
    0 ≤ Int.land (Int.land m (Int.lnot u)) 511 ∧
      Int.land (Int.land m (Int.lnot u)) 511 ≤ 511 := by
  obtain ⟨n, rfl⟩ := Int.eq_ofNat_of_zero_le hm
  obtain ⟨k, hk⟩ := int_land_lnot_cast n u
  rw [hk, int_land_511_cast]
  constructor
  · exact Int.natCast_nonneg _
  · omega

/-- Run of `main` when the mode fails validation. -/
lemma main_run_invalid_mode {m : String} (u : String) (hm : is_valid_octal4 m = false) :
    main_run m u =
      ⟨.failure ("E_OCTAL") ("mode must be 4-digit octal (0000-0777)"), 1, false⟩ := by
  rw [main_run, if_pos (by simp [hm])]

/-- Run of `main` when the mode validates but the umask fails validation. -/
lemma main_run_invalid_umask {m u : String} (hm : is_valid_octal4 m = true)
    (hu : is_valid_octal4 u = false) :
    main_run m u =
      ⟨.failure ("E_OCTAL") ("umask must be 4-digit octal (0000-0777)"), 1, true⟩ := by
  rw [main_run, if_neg (by simp [hm]), if_pos (by simp [hu])]

/-- Run of `main` when both fields validate and both parses pass the
defensive range checks. -/
lemma main_run_in_range {m u : String} (hm : is_valid_octal4 m = true)
    (hu : is_valid_octal4 u = true) (hm511 : octal_to_int m ≤ 511)
    (hu511 : octal_to_int u ≤ 511) :
    main_run m u =
      ⟨.success (Int.land (Int.land (octal_to_int m) (Int.lnot (octal_to_int u))) 511),
        0, true⟩ := by
  rw [main_run, if_neg (by simp [hm]), if_neg (by simp [hu])]
  simp only []
  rw [if_neg (not_lt.mpr hm511), if_neg (not_lt.mpr hu511)]

/-- Any successfully computed effective value is the masked conjunction of
the parsed mode with the complement of the parsed umask. -/
lemma main_result_success_eq {m u : String} {e : Int}
    (h : (main_run m u).result = RunResult.success e) :
    e = Int.land (Int.land (octal_to_int m) (Int.lnot (octal_to_int u))) 511 := by
  rw [main_run] at h
  simp only [] at h
  split_ifs at h <;> simp at h
  exact h.symm

/-- Effective permission of the spec scenario: mode 420 (octal 0644) against
umask 18 (octal 0022) gives back 420, since the umask only clears write bits
the mode does not have in its group and other triads. -/
lemma scenario_effective : Int.land (Int.land 420 (Int.lnot 18)) 511 = 420 := by
  show ((Nat.ldiff 420 18 &&& 511 : ℕ) : ℤ) = (420 : ℤ)
  rw [nat_ldiff_eq_xor]
  decide

set_option maxRecDepth 4000

/-- Round trip over the whole representable range, by evaluation. -/
lemma roundtrip_all : ∀ n : Nat, n < 512 →
    octal_to_int (int_to_octal4 ((n : ℤ))) = ((n : ℤ)) := by decide

/-- The code renderer agrees with the specification renderer on the whole
representable range, by evaluation. -/
lemma symbolic_eq_spec_all : ∀ n : Nat, n < 512 →
    mode_to_symbolic ((n : ℤ)) = symbolic_spec n := by decide

/-- Shape of the octal rendering over the whole representable range, by
evaluation. -/
lemma octal4_shape_all : ∀ n : Nat, n < 512 →
    (int_to_octal4 ((n : ℤ))).data =
      ['0', octDigitChar (n / 64 % 8), octDigitChar (n / 8 % 8), octDigitChar (n % 8)] := by
  decide

/-! Claim theorems. -/

/-- Claim C1 (counterexample): the spec scenario is miscomputed.  On mode 0644 and
umask 0022 the program does not produce 388 (octal 0604): the conjunction of
420 with the complement of 18 is 420 itself, because umask 0022 only clears
write bits that 0644 does not have in its group and other triads. -/
theorem c1_counterexample :
    Int.land (Int.land (octal_to_int ("0644")) (Int.lnot (octal_to_int ("0022")))) 511 ≠ 388 ∧
    outcome_lines (main_run ("0644") ("0022")).result ≠
      [("OK: EFFECTIVE 0604"), ("OK: SYMBOLIC rw----r--")] := by
  have h420 : octal_to_int ("0644") = 420 := by decide
  have h18 : octal_to_int ("0022") = 18 := by decide
  have hrun : main_run ("0644") ("0022") = ⟨RunResult.success 420, 0, true⟩ := by
    rw [main_run_in_range (by decide) (by decide) (by rw [h420]; decide) (by rw [h18]; decide),
      h420, h18, scenario_effective]
  constructor
  · rw [h420, h18, scenario_effective]
    decide
  · rw [hrun]
    decide

/-- Claim C1 (amended): for mode 0644 and umask 0022 the program computes
`420 & ~18 & 511 = 420` and emits `OK: EFFECTIVE 0644` followed by
`OK: SYMBOLIC rw-r--r--`. -/
theorem c1_scenario_0644_0022 :
    octal_to_int ("0644") = 420 ∧ octal_to_int ("0022") = 18 ∧
    Int.land (Int.land 420 (Int.lnot 18)) 511 = 420 ∧
    main_run ("0644") ("0022") = ⟨RunResult.success 420, 0, true⟩ ∧
    outcome_lines (main_run ("0644") ("0022")).result =
      [("OK: EFFECTIVE 0644"), ("OK: SYMBOLIC rw-r--r--")] := by
  have h420 : octal_to_int ("0644") = 420 := by decide
  have h18 : octal_to_int ("0022") = 18 := by decide
  have hrun : main_run ("0644") ("0022") = ⟨RunResult.success 420, 0, true⟩ := by
    rw [main_run_in_range (by decide) (by decide) (by rw [h420]; decide) (by rw [h18]; decide),
      h420, h18, scenario_effective]
  refine ⟨h420, h18, scenario_effective, hrun, ?_⟩
  rw [hrun]
  decide

/-- Claim C2 (counterexample): the validator accepts the string 7777, whose parse
4095 exceeds 511, and on that input the E_RANGE branch of `main` is reached:
the claim that validated inputs always parse below 512 is false. -/
theorem c2_counterexample :
    is_valid_octal4 ("7777") = true ∧ ¬ octal_to_int ("7777") ≤ 511 ∧
    (main_run ("7777") ("0022")).result =
      RunResult.failure ("E_RANGE") ("mode out of range (0000-0777)") := by
  decide

/-- Claim C2 (amended): every string accepted by the validator parses to a value
between 0 and 4095 (not 511: four octal digits reach 7777 in base 8), and the
E_RANGE branches of `main` are reachable, for the mode and for the umask. -/
theorem c2_parse_bound_and_range_reachable :
    (∀ s : String, is_valid_octal4 s = true →
        0 ≤ octal_to_int s ∧ octal_to_int s ≤ 4095) ∧
    (main_run ("7777") ("0000")).result =
      RunResult.failure ("E_RANGE") ("mode out of range (0000-0777)") ∧
    (main_run ("0644") ("7777")).result =
      RunResult.failure ("E_RANGE") ("umask out of range (0000-0777)") := by
  exact ⟨fun s h => octal_to_int_bounds h, by decide, by decide⟩

/-- Claim C2 witness: the amended bound applied to the concrete accepted string
7777. -/
theorem c2_witness :
    is_valid_octal4 ("7777") = true ∧
    0 ≤ octal_to_int ("7777") ∧ octal_to_int ("7777") ≤ 4095 :=
  ⟨by decide, (c2_parse_bound_and_range_reachable.1 ("7777") (by decide)).1,
    (c2_parse_bound_and_range_reachable.1 ("7777") (by decide)).2⟩

/-- Claim C3: the validator accepts a string exactly when it has length four and
every character lies between the characters zero and seven; in particular the
three-character string 644 is rejected, and nothing else (no trimming, no
signs) is accepted. -/
theorem c3_validator_spec :
    (∀ s : String, is_valid_octal4 s = true ↔
        (s.length = 4 ∧ ∀ c ∈ s.data, '0' ≤ c ∧ c ≤ '7')) ∧
    is_valid_octal4 ("644") = false := by
  refine ⟨fun s => ?_, by decide⟩
  rw [is_valid_octal4]
  by_cases hlen : s.length = 4
  · rw [if_neg (by simp [hlen])]
    rw [List.all_eq_true]
    constructor
    · intro h
      refine ⟨hlen, fun c hc => ?_⟩
      have hcb := h c hc
      simp only [Bool.not_eq_true', Bool.or_eq_false_iff, decide_eq_false_iff_not] at hcb
      exact ⟨not_lt.mp hcb.1, not_lt.mp hcb.2⟩
    · rintro ⟨-, hall⟩ c hc
      have hcc := hall c hc
      simp only [Bool.not_eq_true', Bool.or_eq_false_iff, decide_eq_false_iff_not]
      exact ⟨not_lt.mpr hcc.1, not_lt.mpr hcc.2⟩
  · rw [if_pos (by simpa using hlen)]
    simp [hlen]

/-- Claim C3 witness: the characterization applied to the concrete string 0644. -/
theorem c3_witness : is_valid_octal4 ("0644") = true :=
  (c3_validator_spec.1 ("0644")).mpr (by decide)

/-- Claim C4: on a validated four-character string the parser returns exactly the
base-8 interpretation of the four digit values, and the result is
non-negative. -/
theorem c4_parser_base8 (a b c d : Char)
    (h : is_valid_octal4 (String.mk [a, b, c, d]) = true) :
    octal_to_int (String.mk [a, b, c, d]) =
      ((a.toNat : ℤ) - 48) * 8 ^ 3 + ((b.toNat : ℤ) - 48) * 8 ^ 2 +
        ((c.toNat : ℤ) - 48) * 8 + ((d.toNat : ℤ) - 48) ∧
    0 ≤ octal_to_int (String.mk [a, b, c, d]) := by
  have hb := valid_chars h
  have ha1 := hb.2 a (by simp)
  have hb1 := hb.2 b (by simp)
  have hc1 := hb.2 c (by simp)
  have hd1 := hb.2 d (by simp)
  constructor
  · rw [octal_to_int]
    simp only [List.foldl]
    ring
  · rw [octal_to_int]
    simp only [List.foldl]
    omega

/-- Claim C4 witness: the parser contract applied to the concrete digits of
0644. -/
theorem c4_witness :
    is_valid_octal4 (String.mk ['0', '6', '4', '4']) = true ∧
    (octal_to_int (String.mk ['0', '6', '4', '4']) =
        ((Char.toNat '0' : ℤ) - 48) * 8 ^ 3 + ((Char.toNat '6' : ℤ) - 48) * 8 ^ 2 +
          ((Char.toNat '4' : ℤ) - 48) * 8 + ((Char.toNat '4' : ℤ) - 48) ∧
      0 ≤ octal_to_int (String.mk ['0', '6', '4', '4'])) :=
  ⟨by decide, c4_parser_base8 '0' '6' '4' '4' (by decide)⟩

/-- Claim C5: on validated inputs, any effective value the program computes equals
`octal_to_int m & ~octal_to_int u & 511`; when both parses pass the range
guards the run does succeed with that value; and the value is idempotent
under re-masking, hence lies between 0 and 511. -/
theorem c5_effective_formula (m u : String)
    (hm : is_valid_octal4 m = true) (hu : is_valid_octal4 u = true) :
    (∀ e : Int, (main_run m u).result = RunResult.success e →
        e = Int.land (Int.land (octal_to_int m) (Int.lnot (octal_to_int u))) 511) ∧
    (octal_to_int m ≤ 511 → octal_to_int u ≤ 511 →
        (main_run m u).result =
          RunResult.success
            (Int.land (Int.land (octal_to_int m) (Int.lnot (octal_to_int u))) 511)) ∧
    Int.land (Int.land (Int.land (octal_to_int m) (Int.lnot (octal_to_int u))) 511) 511 =
      Int.land (Int.land (octal_to_int m) (Int.lnot (octal_to_int u))) 511 ∧
    0 ≤ Int.land (Int.land (octal_to_int m) (Int.lnot (octal_to_int u))) 511 ∧
    Int.land (Int.land (octal_to_int m) (Int.lnot (octal_to_int u))) 511 ≤ 511 := by
  have hbm := octal_to_int_bounds hm
  have hbnd := effective_bounds (octal_to_int m) (octal_to_int u) hbm.1
  refine ⟨fun e he => main_result_success_eq he, fun hm511 hu511 => ?_,
    int_land_land_511 _, hbnd.1, hbnd.2⟩
  rw [main_run_in_range hm hu hm511 hu511]

/-- Claim C5 witness: the formula and success branch on the concrete inputs 0644
and 0022. -/
theorem c5_witness :
    is_valid_octal4 ("0644") = true ∧ is_valid_octal4 ("0022") = true ∧
    octal_to_int ("0644") ≤ 511 ∧ octal_to_int ("0022") ≤ 511 ∧
    (main_run ("0644") ("0022")).result =
      RunResult.success
        (Int.land (Int.land (octal_to_int ("0644")) (Int.lnot (octal_to_int ("0022")))) 511) :=
  ⟨by decide, by decide, by decide, by decide,
    (c5_effective_formula ("0644") ("0022") (by decide) (by decide)).2.1
      (by decide) (by decide)⟩

/-- Claim C6: rendering a value between 0 and 511 as a four-digit octal numeral and
parsing it back is the identity. -/
theorem c6_roundtrip (v : Int) (h0 : 0 ≤ v) (h511 : v ≤ 511) :
    octal_to_int (int_to_octal4 v) = v := by
  obtain ⟨n, rfl⟩ := Int.eq_ofNat_of_zero_le h0
  exact roundtrip_all n (by omega)

/-- Claim C6 witness: the round trip at the concrete value 420. -/
theorem c6_witness :
    (0 : ℤ) ≤ 420 ∧ (420 : ℤ) ≤ 511 ∧ octal_to_int (int_to_octal4 (420 : ℤ)) = 420 :=
  ⟨by decide, by decide, c6_roundtrip 420 (by decide) (by decide)⟩

/-- Claim C7: for every value between 0 and 511 the symbolic rendering is the
specification's triad decomposition (shift by 6, 3, 0; mask with 7; bit 4 to
the read character, bit 2 to write, bit 1 to execute; user, group, other
order), it is nine characters long, and the boundary values 511 and 0 render
as all permissions and no permissions. -/
theorem c7_symbolic_spec :
    (∀ v : Int, 0 ≤ v → v ≤ 511 →
        mode_to_symbolic v = symbolic_spec v.toNat ∧ (mode_to_symbolic v).length = 9) ∧
    mode_to_symbolic 511 = ("rwxrwxrwx") ∧ mode_to_symbolic 0 = ("---------") := by
  refine ⟨fun v h0 h511 => ?_, by decide, by decide⟩
  obtain ⟨n, rfl⟩ := Int.eq_ofNat_of_zero_le h0
  exact ⟨symbolic_eq_spec_all n (by omega), rfl⟩

/-- Claim C7 witness: the decomposition at the concrete value 420. -/
theorem c7_witness :
    (0 : ℤ) ≤ 420 ∧ (420 : ℤ) ≤ 511 ∧
    mode_to_symbolic (420 : ℤ) = symbolic_spec (Int.toNat 420) ∧
    (mode_to_symbolic (420 : ℤ)).length = 9 :=
  ⟨by decide, by decide, (c7_symbolic_spec.1 420 (by decide) (by decide)).1,
    (c7_symbolic_spec.1 420 (by decide) (by decide)).2⟩

/-- Claim C8: whenever the mode string fails validation, the run reports exactly
the E_OCTAL mode error line, exits with code 1, and never reaches the umask
prompt or read. -/
theorem c8_invalid_mode_fail_fast (m u : String) (hm : is_valid_octal4 m = false) :
    main_run m u =
      ⟨RunResult.failure ("E_OCTAL") ("mode must be 4-digit octal (0000-0777)"), 1, false⟩ ∧
    outcome_lines (main_run m u).result =
      [("ERROR: E_OCTAL: mode must be 4-digit octal (0000-0777)")] ∧
    (main_run m u).exitCode = 1 ∧ (main_run m u).umaskRead = false := by
  have h := main_run_invalid_mode u hm
  refine ⟨h, by rw [h]; decide, by rw [h], by rw [h]⟩

/-- Claim C8 witness: the fail-fast behaviour on the concrete invalid mode 999. -/
theorem c8_witness :
    is_valid_octal4 ("999") = false ∧
    main_run ("999") ("0022") =
      ⟨RunResult.failure ("E_OCTAL") ("mode must be 4-digit octal (0000-0777)"), 1, false⟩ :=
  ⟨by decide, (c8_invalid_mode_fail_fast ("999") ("0022") (by decide)).1⟩

/-- Claim C9: for every value between 0 and 511 the octal rendering has exactly
four characters, namely the character zero followed by the three base-8
digits of the value, so it is zero-padded and its leading character is
always the character zero. -/
theorem c9_octal_renderer (v : Int) (h0 : 0 ≤ v) (h511 : v ≤ 511) :
    (int_to_octal4 v).length = 4 ∧
    (int_to_octal4 v).data =
      ['0', octDigitChar (v.toNat / 64 % 8), octDigitChar (v.toNat / 8 % 8),
        octDigitChar (v.toNat % 8)] := by
  obtain ⟨n, rfl⟩ := Int.eq_ofNat_of_zero_le h0
  have h := octal4_shape_all n (by omega)
  refine ⟨?_, h⟩
  show (int_to_octal4 ((n : ℤ))).data.length = 4
  rw [h]
  rfl

/-- Claim C9 witness: the rendering shape at the concrete value 420, which renders
as 0644. -/
theorem c9_witness :
    (0 : ℤ) ≤ 420 ∧ (420 : ℤ) ≤ 511 ∧
    (int_to_octal4 (420 : ℤ)).length = 4 ∧
    (int_to_octal4 (420 : ℤ)).data =
      ['0', octDigitChar (Int.toNat 420 / 64 % 8), octDigitChar (Int.toNat 420 / 8 % 8),
        octDigitChar (Int.toNat 420 % 8)] ∧
    int_to_octal4 (420 : ℤ) = ("0644") :=
  ⟨by decide, by decide, (c9_octal_renderer 420 (by decide) (by decide)).1,
    (c9_octal_renderer 420 (by decide) (by decide)).2, by decide⟩

/-- Claim C10: both renderers are total and only look at the low nine bits: for
every integer, symbolic rendering agrees with the symbolic rendering of the
value masked with 511 and is always nine characters long, and the octal
rendering likewise agrees with that of the masked value. -/
theorem c10_renderers_mask_insensitive (v : Int) :
    mode_to_symbolic v = mode_to_symbolic (Int.land v 511) ∧
    (mode_to_symbolic v).length = 9 ∧
    int_to_octal4 v = int_to_octal4 (Int.land v 511) := by
  refine ⟨?_, rfl, ?_⟩
  · rw [mode_to_symbolic, mode_to_symbolic]
    rw [int_shift6_mask v, int_shift3_mask v, int_shift0_mask v]
  · rw [int_to_octal4, int_to_octal4, int_land_land_511]

end PermCalc
